import Mathlib

/-!
Verification of `signals.c` : signal-driven draining of a CAN socket.

A shallow embedding of `src/signals.c`.

* The file-scope variables `socket_fd` and `exit_signal`, the process signal
  mask and the log of system calls issued form `State`.
* Every C function is a Lean function of the same name.
* What the kernel and the operator decide is an explicit input:
  the successive results of `read` (a `List Int`), the return value of every
  other system call (`Env`), and the moments at which SIGINT is delivered
  (a `List Bool`, see `tick`).
* What `io_handler` does to the outside world is the list of `Event`s it
  returns: each `read` and each `write` call, with its arguments.
-/

namespace Signals

/-! ## Constants of the platform headers -/

/-- Value of `CAN_MTU` in `<linux/can.h>`: `sizeof(struct can_frame)`, 16 bytes. -/
def CAN_MTU : Int := 16

/-- Value of `STDOUT_FILENO` in `<unistd.h>`. -/
def STDOUT_FILENO : Int := 1

/-- Value of `SIGINT` in `<signal.h>` (Linux). -/
def SIGINT : Nat := 2

/-- Value of `SIGIO` in `<signal.h>` (Linux, x86 and ARM). -/
def SIGIO : Nat := 29

/-- The C type `sigset_t`: a set of signal numbers. -/
abbrev sigset_t := Finset Nat

/-! ## File-scope data (signals.c lines 16-22) -/

/-- The array `static const char done_msg[] = "|";` with its terminating NUL. -/
def done_msg : List Char := ['|', Char.ofNat 0]

/-- The array `static const char data_msg[] = "+";` with its terminating NUL. -/
def data_msg : List Char := ['+', Char.ofNat 0]

/-- The array `static const char nodata_msg[] = "_";` with its terminating NUL. -/
def nodata_msg : List Char := ['_', Char.ofNat 0]

/-- The C operator `sizeof` applied to a `char` array: its number of elements. -/
def sizeof (arr : List Char) : Nat := arr.length

/-- System calls whose return value the orchestrator receives from the kernel. -/
inductive Call
  | sigaction_SIGINT
  | socket
  | ioctl_SIOCGIFINDEX
  | bind
  | fcntl_F_SETOWN
  | fcntl_F_SETFL
  | sigaction_SIGIO
  | sigprocmask_SIG_BLOCK
  | sigprocmask_SIG_SETMASK
  | close
  deriving DecidableEq, Repr

/-- Return value the kernel gives to each system call of the orchestrator. -/
abbrev Env := Call → Int

/-- Process state the program reads and writes: the two file-scope variables
(`socket_fd`, line 16, and `exit_signal`, line 18), the set of blocked
signals of the process, and the system calls issued so far, oldest first. -/
structure State where
  socket_fd : Int
  exit_signal : Int
  blocked : sigset_t
  calls : List Call
  deriving DecidableEq

/-- State at program start: `socket_fd = -1`, `exit_signal = 0`, the signal
mask `M` inherited from the parent, no system call issued yet. -/
def State.initial (M : sigset_t) : State :=
  { socket_fd := -1, exit_signal := 0, blocked := M, calls := [] }

/-! ## The handlers (signals.c lines 24-56) -/

/-- One system call made by `io_handler`, as seen from outside the process. -/
inductive Event
  | read (fd : Int) (count : Int) (result : Int)
  | write (fd : Int) (buf : List Char) (count : Nat)
  deriving DecidableEq, Repr

/-- `terminate_handler` (lines 24-28): `exit_signal = 1;`. -/
def terminate_handler (_sig : Nat) (s : State) : State :=
  { s with exit_signal := 1 }

/-- Body of the `do ... while` loop of `io_handler` (lines 41-50) for one
result `read_status` of `read(socket_fd, &rx_frame, CAN_MTU)`: the `read`
call, then one `write` to standard output, of `data_msg` when the result
equals `CAN_MTU` and of `nodata_msg` otherwise.  A `read` returns an
`ssize_t`; on those values the comparison with the `size_t` constant
`CAN_MTU` agrees with the comparison of integers. -/
def read_attempt (fd : Int) (read_status : Int) : List Event :=
  [ Event.read fd CAN_MTU read_status,
    if read_status = CAN_MTU then Event.write STDOUT_FILENO data_msg (sizeof data_msg)
    else Event.write STDOUT_FILENO nodata_msg (sizeof nodata_msg) ]

/-- The `do ... while(read_status > 0)` loop of `io_handler` (lines 39-52).
`reads` holds the results of the successive `read` calls, as the kernel will
give them.  Each iteration takes one result, runs the loop body on it, and
goes on while the result is positive.  The outcome is the events of the loop
and the read results left unused; it is `none` when `reads` ends before a
result that stops the loop. -/
def io_handler_loop (fd : Int) : List Int → Option (List Event × List Int)
  | [] => none
  | read_status :: rest =>
    if read_status > 0 then
      match io_handler_loop fd rest with
      | none => none
      | some (events, unused) => some (read_attempt fd read_status ++ events, unused)
    else
      some (read_attempt fd read_status, rest)

/-- `io_handler` (lines 30-56): when `socket_fd >= 0` run the drain loop, then
in every case write `done_msg`.  It changes no variable of the process. -/
def io_handler (_sig : Nat) (reads : List Int) (s : State) :
    Option (List Event × List Int) :=
  let done : Event := Event.write STDOUT_FILENO done_msg (sizeof done_msg)
  if s.socket_fd ≥ 0 then
    match io_handler_loop s.socket_fd reads with
    | none => none
    | some (events, unused) => some (events ++ [done], unused)
  else
    some ([done], reads)

/-! ## The orchestrator (signals.c lines 58-250) -/

/-- Outcome of an orchestrator function: it returned a value, or it ended the
process with `exit(code)` in state `s`, or it is still in a wait loop that no
further signal will end. -/
inductive Result (α : Type) where
  | returned (a : α)
  | exited (code : Int) (s : State)
  | waiting
  deriving DecidableEq

/-- Sequencing of orchestrator functions: the next one runs only when the
previous one returned. -/
def Result.bind {α β : Type} (r : Result α) (f : α → Result β) : Result β :=
  match r with
  | Result.returned a => f a
  | Result.exited code s => Result.exited code s
  | Result.waiting => Result.waiting

instance : Monad Result where
  pure := Result.returned
  bind := Result.bind

/-- The kernel answers one system call: the call is logged and its return
value is taken from `env`. -/
def syscall (env : Env) (c : Call) (s : State) : Int × State :=
  (env c, { s with calls := s.calls ++ [c] })

/-- Asynchronous delivery of SIGINT while its disposition is
`terminate_handler`.  A schedule is a list of ticks.  The orchestrator
consumes one tick before each of its accesses to `exit_signal` (every test of
the `while` condition and the assignment `exit_signal = 0`) and one before
`sigint_wait` returns.  A tick is `true` when SIGINT was delivered, and
`terminate_handler` ran to completion, since the previous tick.  An exhausted
schedule delivers nothing more. -/
def tick : List Bool → State → State × List Bool
  | [], s => (s, [])
  | b :: rest, s => (if b then terminate_handler SIGINT s else s, rest)

/-- The loop `while(exit_signal == 0) { sleep(1); }` of `sigint_wait`
(lines 62-65).  Before each test one tick is consumed.  The loop ends at the
first test that reads a non-zero flag; it yields the state at that test and
the ticks left.  When the schedule is exhausted and the flag reads zero, no
signal will come any more and the loop never ends: `none`. -/
def sigint_wait_loop : List Bool → State → Option (State × List Bool)
  | [], s => if s.exit_signal = 0 then none else some (s, [])
  | b :: rest, s =>
    let s1 := if b then terminate_handler SIGINT s else s
    if s1.exit_signal = 0 then sigint_wait_loop rest s1
    else some (s1, rest)

/-- `sigint_wait` (lines 58-70): the wait loop, then `exit_signal = 0;`, then
the return.  One tick lies between the last test and the assignment, one
between the assignment and the return. -/
def sigint_wait (sched : List Bool) (s : State) : Result (State × List Bool) :=
  match sigint_wait_loop sched s with
  | none => Result.waiting
  | some (s1, sched1) =>
    let (s2, sched2) := tick sched1 s1
    let s3 := { s2 with exit_signal := 0 }
    Result.returned (tick sched2 s3)

/-- `register_sigint` (lines 72-89): `sigaction(SIGINT, &act, 0)`, and
`exit(1)` when it returns a negative value. -/
def register_sigint (env : Env) (s : State) : Result State :=
  let (ret, s) := syscall env Call.sigaction_SIGINT s
  if ret < 0 then Result.exited 1 s else Result.returned s

/-- `register_sigio` (lines 91-108): `sigaction(SIGIO, &act, 0)`, and
`exit(1)` when it returns a negative value. -/
def register_sigio (env : Env) (s : State) : Result State :=
  let (ret, s) := syscall env Call.sigaction_SIGIO s
  if ret < 0 then Result.exited 1 s else Result.returned s

/-- The argument `how` of `sigprocmask`, for the two values the program uses. -/
inductive How
  | SIG_BLOCK
  | SIG_SETMASK
  deriving DecidableEq

/-- The system call `sigprocmask(how, set, oldset)`; `oldset = none` is the
NULL pointer.  On failure (negative return value) nothing changes.  On
success the previous blocked set is stored through `oldset` and the blocked
set becomes its union with `set` (`SIG_BLOCK`) or `set` itself
(`SIG_SETMASK`), as POSIX specifies.  The result is the return value, the
set `oldset` points to afterwards, and the new state. -/
def sigprocmask (env : Env) (how : How) (set : sigset_t) (oldset : Option sigset_t)
    (s : State) : Int × Option sigset_t × State :=
  let c := match how with
    | How.SIG_BLOCK => Call.sigprocmask_SIG_BLOCK
    | How.SIG_SETMASK => Call.sigprocmask_SIG_SETMASK
  let (ret, s1) := syscall env c s
  if ret < 0 then (ret, oldset, s1)
  else
    let blocked := match how with
      | How.SIG_BLOCK => s.blocked ∪ set
      | How.SIG_SETMASK => set
    (ret, oldset.map (fun _ => s.blocked), { s1 with blocked := blocked })

/-- The library function `sigaddset(set, signum)`. -/
def sigaddset (set : sigset_t) (signum : Nat) : sigset_t := insert signum set

/-- The library function `sigemptyset(set)`. -/
def sigemptyset : sigset_t := ∅

/-- `block_sigio` (lines 110-125): add SIGIO to `*mask`, then
`sigprocmask(SIG_BLOCK, mask, orig_mask)`, and `exit(1)` when it returns a
negative value.  Returns the sets `mask` and `orig_mask` point to afterwards,
and the state. -/
def block_sigio (env : Env) (mask orig_mask : sigset_t) (s : State) :
    Result (sigset_t × sigset_t × State) :=
  let mask := sigaddset mask SIGIO
  let (ret, old, s) := sigprocmask env How.SIG_BLOCK mask (some orig_mask) s
  if ret < 0 then Result.exited 1 s
  else Result.returned (mask, old.getD orig_mask, s)

/-- `unblock_sigio` (lines 127-137): `sigprocmask(SIG_SETMASK, mask, NULL)`,
and `exit(1)` when it returns a negative value. -/
def unblock_sigio (env : Env) (mask : sigset_t) (s : State) : Result State :=
  let (ret, _, s) := sigprocmask env How.SIG_SETMASK mask none s
  if ret < 0 then Result.exited 1 s else Result.returned s

/-- `create_can_socket` (lines 139-187): `socket`, `ioctl(SIOCGIFINDEX)`,
`bind`, `fcntl(F_SETOWN)`, `fcntl(F_SETFL)`, each followed by `exit(1)` when
it returns a negative value.  The result of `socket` is stored in
`socket_fd` before it is tested. -/
def create_can_socket (env : Env) (s : State) : Result State :=
  let (fd, s) := syscall env Call.socket s
  let s := { s with socket_fd := fd }
  if s.socket_fd < 0 then Result.exited 1 s else
  let (ret, s) := syscall env Call.ioctl_SIOCGIFINDEX s
  if ret < 0 then Result.exited 1 s else
  let (ret, s) := syscall env Call.bind s
  if ret < 0 then Result.exited 1 s else
  let (ret, s) := syscall env Call.fcntl_F_SETOWN s
  if ret < 0 then Result.exited 1 s else
  let (ret, s) := syscall env Call.fcntl_F_SETFL s
  if ret < 0 then Result.exited 1 s else
  Result.returned s

/-- The release step that ends `example` (lines 217-221):
`if(socket_fd >= 0) { close(socket_fd); socket_fd = -1; }`.  The return value
of `close` is not looked at. -/
def release_socket (env : Env) (s : State) : State :=
  if s.socket_fd ≥ 0 then
    let (_, s) := syscall env Call.close s
    { s with socket_fd := -1 }
  else s

/-- `example` (lines 189-222); `example` is a reserved word of Lean, hence
the underscore. -/
def example_ (env : Env) (sched : List Bool) (s : State) : Result (State × List Bool) := do
  let mask : sigset_t := sigemptyset
  let orig_mask : sigset_t := sigemptyset
  let s ← register_sigint env s
  let (s, sched) ← sigint_wait sched s
  let s ← create_can_socket env s
  let s ← register_sigio env s
  let (s, sched) ← sigint_wait sched s
  let (_, orig_mask, s) ← block_sigio env mask orig_mask s
  let (s, sched) ← sigint_wait sched s
  let s ← unblock_sigio env orig_mask s
  let (s, sched) ← sigint_wait sched s
  return (release_socket env s, sched)

/-- `main` (lines 224-250): run `example` from the initial state, then
`return 0`.  The result is the exit code of the process and its last state,
or `none` when the process waits for ever. -/
def main (env : Env) (sched : List Bool) (M : sigset_t) : Option (Int × State) :=
  match example_ env sched (State.initial M) with
  | Result.returned (s, _) => some (0, s)
  | Result.exited code s => some (code, s)
  | Result.waiting => none

/-- The system calls whose failure the program tests, in program order. -/
def setup_calls : List Call :=
  [ Call.sigaction_SIGINT, Call.socket, Call.ioctl_SIOCGIFINDEX, Call.bind,
    Call.fcntl_F_SETOWN, Call.fcntl_F_SETFL, Call.sigaction_SIGIO,
    Call.sigprocmask_SIG_BLOCK, Call.sigprocmask_SIG_SETMASK ]

/-- The state `s` after the system calls `cs` were added to its log. -/
def logged (s : State) (cs : List Call) : State := { s with calls := s.calls ++ cs }

/-- Number of tested system calls that succeed before the first one that
fails; it is 9 when none fails. -/
def first_failure (env : Env) : Nat :=
  (setup_calls.takeWhile fun c => decide (0 ≤ env c)).length

/-- Value of `exit_signal` when an orchestrator function is over, whether it
returned or ended the process; `proj` picks the state out of a returned
value. -/
def flag_after {α : Type} (proj : α → State) : Result α → Option Int
  | Result.returned a => some (proj a).exit_signal
  | Result.exited _ s => some s.exit_signal
  | Result.waiting => none

/-! ## Observations on a trace of events -/

/-- Number of `read` calls in a trace. -/
def reads_performed (t : List Event) : Nat :=
  (t.filter fun e => match e with | Event.read _ _ _ => true | _ => false).length

/-- Status symbols of a trace: the first character of every buffer written to
standard output, in order. -/
def symbols : List Event → List Char
  | [] => []
  | Event.write fd buf _ :: t =>
    if fd = STDOUT_FILENO then buf.head?.toList ++ symbols t else symbols t
  | Event.read _ _ _ :: t => symbols t

/-- Bytes that reach standard output when every `write` of the trace
transfers its full `count`. -/
def stdout_bytes : List Event → List Char
  | [] => []
  | Event.write fd buf count :: t =>
    if fd = STDOUT_FILENO then buf.take count ++ stdout_bytes t else stdout_bytes t
  | Event.read _ _ _ :: t => stdout_bytes t

/-- Events of the drain loop for the read results it consumes, in order. -/
def attempts (fd : Int) : List Int → List Event
  | [] => []
  | r :: rest => read_attempt fd r ++ attempts fd rest

/-- Status symbol of one read attempt: data-available for a full frame,
no-data for any other result. -/
def attempt_symbol (read_status : Int) : Char :=
  if read_status = CAN_MTU then '+' else '_'

/-- The `write` of `done_msg` that ends every invocation (line 55). -/
def done_event : Event := Event.write STDOUT_FILENO done_msg (sizeof done_msg)

/-! ## Lemmas on traces -/

theorem symbols_append (a b : List Event) : symbols (a ++ b) = symbols a ++ symbols b := by
  induction a with
  | nil => rfl
  | cons e t ih =>
    cases e with
    | read fd c r => simpa [symbols] using ih
    | write fd buf c =>
      by_cases h : fd = STDOUT_FILENO <;> simp [symbols, h, ih]

theorem reads_performed_append (a b : List Event) :
    reads_performed (a ++ b) = reads_performed a + reads_performed b := by
  simp [reads_performed]

theorem symbols_read_attempt (fd r : Int) : symbols (read_attempt fd r) = [attempt_symbol r] := by
  by_cases h : r = CAN_MTU <;>
    simp [read_attempt, symbols, attempt_symbol, h, data_msg, nodata_msg]

theorem reads_performed_read_attempt (fd r : Int) : reads_performed (read_attempt fd r) = 1 := by
  by_cases h : r = CAN_MTU <;> simp [read_attempt, reads_performed, h]

theorem symbols_attempts (fd : Int) (l : List Int) :
    symbols (attempts fd l) = l.map attempt_symbol := by
  induction l with
  | nil => rfl
  | cons r t ih => simp [attempts, symbols_append, symbols_read_attempt, ih]

theorem reads_performed_attempts (fd : Int) (l : List Int) :
    reads_performed (attempts fd l) = l.length := by
  induction l with
  | nil => rfl
  | cons r t ih =>
    simp [attempts, reads_performed_append, reads_performed_read_attempt, ih]
    omega

theorem symbols_done_event : symbols [done_event] = ['|'] := by
  simp [done_event, symbols, done_msg]

theorem reads_performed_done_event : reads_performed [done_event] = 0 := by
  simp [done_event, reads_performed]

theorem attempts_append (fd : Int) (a b : List Int) :
    attempts fd (a ++ b) = attempts fd a ++ attempts fd b := by
  induction a with
  | nil => rfl
  | cons r t ih => simp [attempts, ih]

theorem attempts_eq_flatten (fd : Int) (l : List Int) :
    attempts fd l = (l.map (read_attempt fd)).flatten := by
  induction l with
  | nil => rfl
  | cons r t ih => simp [attempts, ih]

theorem attempts_replicate_full (fd : Int) (N : Nat) :
    attempts fd (List.replicate N CAN_MTU) =
      (List.replicate N
        [Event.read fd CAN_MTU CAN_MTU, Event.write STDOUT_FILENO data_msg 2]).flatten := by
  induction N with
  | zero => rfl
  | succ n ih => simp [List.replicate_succ, attempts, read_attempt, ih, sizeof, data_msg]

theorem count_done_attempt_symbols (l : List Int) :
    (l.map attempt_symbol).count '|' = 0 := by
  induction l with
  | nil => rfl
  | cons r t ih =>
    by_cases h : r = CAN_MTU <;> simp [attempt_symbol, h, List.count_cons, ih]

/-! ## Lemmas on `io_handler` -/

/-- The loop consumes the positive results `pre`, then the first result
`r <= 0`, and stops there. -/
theorem io_handler_loop_stop (fd : Int) (pre : List Int) (r : Int) (rest : List Int)
    (hpre : ∀ x ∈ pre, 0 < x) (hr : r ≤ 0) :
    io_handler_loop fd (pre ++ r :: rest) = some (attempts fd (pre ++ [r]), rest) := by
  induction pre with
  | nil =>
    have : ¬ r > 0 := by omega
    simp [io_handler_loop, this, attempts]
  | cons x t ih =>
    have hx : x > 0 := hpre x (List.mem_cons_self _ _)
    have ht : ∀ y ∈ t, 0 < y := fun y hy => hpre y (List.mem_cons_of_mem _ hy)
    simp [io_handler_loop, hx, ih ht, attempts]

/-- With a valid handle and only positive read results the loop never stops. -/
theorem io_handler_loop_none (fd : Int) (l : List Int) (h : ∀ x ∈ l, 0 < x) :
    io_handler_loop fd l = none := by
  induction l with
  | nil => rfl
  | cons x t ih =>
    have hx : x > 0 := h x (List.mem_cons_self _ _)
    have ht : ∀ y ∈ t, 0 < y := fun y hy => h y (List.mem_cons_of_mem _ hy)
    simp [io_handler_loop, hx, ih ht]

/-- A list with a non-positive element splits at the first one. -/
theorem split_at_first_nonpos (l : List Int) (h : ∃ r ∈ l, r ≤ 0) :
    ∃ pre r rest, l = pre ++ r :: rest ∧ (∀ x ∈ pre, 0 < x) ∧ r ≤ 0 := by
  induction l with
  | nil => simp at h
  | cons x t ih =>
    by_cases hx : x ≤ 0
    · exact ⟨[], x, t, rfl, by simp, hx⟩
    · have ht : ∃ r ∈ t, r ≤ 0 := by
        obtain ⟨r, hr, hr0⟩ := h
        rcases List.mem_cons.mp hr with rfl | hm
        · exact absurd hr0 hx
        · exact ⟨r, hm, hr0⟩
      obtain ⟨pre, r, rest, hl, hp, hr⟩ := ih ht
      refine ⟨x :: pre, r, rest, by simp [hl], ?_, hr⟩
      intro y hy
      rcases List.mem_cons.mp hy with rfl | hm
      · omega
      · exact hp y hm

theorem io_handler_valid (sig : Nat) (s : State) (pre : List Int) (r : Int) (rest : List Int)
    (hfd : 0 ≤ s.socket_fd) (hpre : ∀ x ∈ pre, 0 < x) (hr : r ≤ 0) :
    io_handler sig (pre ++ r :: rest) s =
      some (attempts s.socket_fd (pre ++ [r]) ++ [done_event], rest) := by
  have h : s.socket_fd ≥ 0 := hfd
  simp [io_handler, h, io_handler_loop_stop s.socket_fd pre r rest hpre hr, done_event]

theorem io_handler_invalid (sig : Nat) (s : State) (reads : List Int) (hfd : s.socket_fd < 0) :
    io_handler sig reads s = some ([done_event], reads) := by
  have h : ¬ s.socket_fd ≥ 0 := by omega
  simp [io_handler, h, done_event]

/-! ## Lemmas on the wait loop -/

theorem tick_frame (sched : List Bool) (s : State) :
    (tick sched s).1.socket_fd = s.socket_fd ∧ (tick sched s).1.blocked = s.blocked ∧
      (tick sched s).1.calls = s.calls := by
  cases sched with
  | nil => simp [tick]
  | cons b rest => cases b <;> simp [tick, terminate_handler]

theorem tick_count (sched : List Bool) (s : State) :
    sched.count true ≤ (tick sched s).2.count true + 1 := by
  cases sched with
  | nil => simp [tick]
  | cons b rest => cases b <;> simp [tick]

theorem tick_rest (sched : List Bool) (s : State) : (tick sched s).2 = sched.drop 1 := by
  cases sched <;> simp [tick]

theorem tick_exit_signal (sched : List Bool) (s : State) :
    (tick sched s).1.exit_signal = if sched.head? = some true then 1 else s.exit_signal := by
  cases sched with
  | nil => simp [tick]
  | cons b rest => cases b <;> simp [tick, terminate_handler]

theorem tick_quiet (m : Nat) (s : State) :
    tick (List.replicate m false) s = (s, List.replicate (m - 1) false) := by
  cases m with
  | zero => rfl
  | succ n => simp [List.replicate_succ, tick]

theorem state_eq_of_frame (s s2 : State) (hfd : s2.socket_fd = s.socket_fd)
    (hbl : s2.blocked = s.blocked) (hcl : s2.calls = s.calls) :
    s2 = { s with exit_signal := s2.exit_signal } := by
  cases s
  cases s2
  simp_all

/-- The loop ends only at a test that reads a non-zero flag, and changes
nothing but the flag. -/
theorem sigint_wait_loop_some (sched : List Bool) (s s1 : State) (r1 : List Bool)
    (h : sigint_wait_loop sched s = some (s1, r1)) :
    s1.exit_signal ≠ 0 ∧ s1.socket_fd = s.socket_fd ∧ s1.blocked = s.blocked ∧
      s1.calls = s.calls ∧ sched.count true ≤ r1.count true + 1 := by
  induction sched generalizing s with
  | nil =>
    by_cases h0 : s.exit_signal = 0
    · simp [sigint_wait_loop, h0] at h
    · simp [sigint_wait_loop, h0] at h
      obtain ⟨rfl, rfl⟩ := h
      simp [h0]
  | cons b rest ih =>
    cases b with
    | false =>
      by_cases h0 : s.exit_signal = 0
      · simp [sigint_wait_loop, h0] at h
        simpa using ih s h
      · simp [sigint_wait_loop, h0] at h
        obtain ⟨rfl, rfl⟩ := h
        simp [h0]
    | true =>
      simp [sigint_wait_loop, terminate_handler] at h
      obtain ⟨rfl, rfl⟩ := h
      simp

/-- Without any delivery, a loop entered with the flag at zero never ends. -/
theorem sigint_wait_loop_quiet (sched : List Bool) (s : State) (h0 : s.exit_signal = 0)
    (hq : ∀ b ∈ sched, b = false) : sigint_wait_loop sched s = none := by
  induction sched with
  | nil => simp [sigint_wait_loop, h0]
  | cons b rest ih =>
    have hb : b = false := hq b (List.mem_cons_self _ _)
    have hr : ∀ c ∈ rest, c = false := fun c hc => hq c (List.mem_cons_of_mem _ hc)
    subst hb
    simp [sigint_wait_loop, h0, ih hr]

/-- One delivery after `k` quiet ticks ends a loop entered with the flag at
zero, right at that tick. -/
theorem sigint_wait_loop_one (k : Nat) (r : List Bool) (s : State) (h0 : s.exit_signal = 0) :
    sigint_wait_loop (List.replicate k false ++ true :: r) s =
      some ({ s with exit_signal := 1 }, r) := by
  induction k with
  | zero => simp [sigint_wait_loop, terminate_handler]
  | succ n ih => simp [List.replicate_succ, sigint_wait_loop, h0, ih]

/-- A schedule with a delivery ends the loop. -/
theorem sigint_wait_loop_returns (sched : List Bool) (s : State)
    (h : 1 ≤ sched.count true) : ∃ s1 r1, sigint_wait_loop sched s = some (s1, r1) := by
  induction sched generalizing s with
  | nil => simp at h
  | cons b rest ih =>
    cases b with
    | false =>
      by_cases h0 : s.exit_signal = 0
      · simp [sigint_wait_loop, h0]
        exact ih s (by simpa using h)
      · simp [sigint_wait_loop, h0]
    | true => simp [sigint_wait_loop, terminate_handler]

/-- The wait after its loop: one tick, the assignment, one tick. -/
theorem sigint_wait_of_loop (sched : List Bool) (s s1 : State) (r1 : List Bool)
    (hl : sigint_wait_loop sched s = some (s1, r1)) :
    sigint_wait sched s =
      Result.returned (tick (tick r1 s1).2 { (tick r1 s1).1 with exit_signal := 0 }) := by
  unfold sigint_wait
  rw [hl]

/-- A wait whose schedule holds a delivery returns; it changes nothing but the
flag and uses up at most three deliveries. -/
theorem sigint_wait_returns (sched : List Bool) (s : State) (h : 1 ≤ sched.count true) :
    ∃ s1 rest, sigint_wait sched s = Result.returned (s1, rest) ∧
      s1.socket_fd = s.socket_fd ∧ s1.blocked = s.blocked ∧ s1.calls = s.calls ∧
      sched.count true ≤ rest.count true + 3 := by
  obtain ⟨s1, r1, hl⟩ := sigint_wait_loop_returns sched s h
  obtain ⟨_, hfd, hbl, hcl, hc1⟩ := sigint_wait_loop_some sched s s1 r1 hl
  obtain ⟨a2, b2, c2⟩ := tick_frame r1 s1
  have hc2 := tick_count r1 s1
  obtain ⟨a3, b3, c3⟩ := tick_frame (tick r1 s1).2 { (tick r1 s1).1 with exit_signal := 0 }
  have hc3 := tick_count (tick r1 s1).2 { (tick r1 s1).1 with exit_signal := 0 }
  exact ⟨(tick (tick r1 s1).2 { (tick r1 s1).1 with exit_signal := 0 }).1,
    (tick (tick r1 s1).2 { (tick r1 s1).1 with exit_signal := 0 }).2,
    sigint_wait_of_loop sched s s1 r1 hl, a3.trans (a2.trans hfd), b3.trans (b2.trans hbl),
    c3.trans (c2.trans hcl), by omega⟩

/-- A wait entered with the flag set returns at its first test, whatever the
schedule: it uses up three ticks, and only a delivery at the third one, after
the assignment, leaves the flag at 1. -/
theorem sigint_wait_latched (sched : List Bool) (s : State) (h : s.exit_signal ≠ 0) :
    sigint_wait sched s =
      Result.returned
        ({ s with exit_signal := if (sched.drop 2).head? = some true then 1 else 0 },
          sched.drop 3) := by
  rcases sched with _ | ⟨a, _ | ⟨b, _ | ⟨c, r⟩⟩⟩
  · simp [sigint_wait, sigint_wait_loop, tick, h]
  · cases a <;> simp [sigint_wait, sigint_wait_loop, tick, terminate_handler, h]
  · cases a <;> cases b <;>
      simp [sigint_wait, sigint_wait_loop, tick, terminate_handler, h]
  · cases a <;> cases b <;> cases c <;>
      simp [sigint_wait, sigint_wait_loop, tick, terminate_handler, h]

/-- A wait either never returns, and then its schedule holds no delivery, or
returns, changing nothing but the flag and using up at most three
deliveries. -/
theorem sigint_wait_cases (sched : List Bool) (s : State) :
    (sigint_wait sched s = Result.waiting ∧ sched.count true = 0) ∨
    ∃ s1 rest, sigint_wait sched s = Result.returned (s1, rest) ∧
      s1.socket_fd = s.socket_fd ∧ s1.blocked = s.blocked ∧ s1.calls = s.calls ∧
      sched.count true ≤ rest.count true + 3 := by
  by_cases h : 1 ≤ sched.count true
  · exact Or.inr (sigint_wait_returns sched s h)
  · cases hl : sigint_wait_loop sched s with
    | none => exact Or.inl ⟨by simp [sigint_wait, hl], by omega⟩
    | some p =>
      obtain ⟨s1, r1⟩ := p
      obtain ⟨_, hfd, hbl, hcl, _⟩ := sigint_wait_loop_some sched s s1 r1 hl
      obtain ⟨a2, b2, c2⟩ := tick_frame r1 s1
      obtain ⟨a3, b3, c3⟩ :=
        tick_frame (tick r1 s1).2 { (tick r1 s1).1 with exit_signal := 0 }
      exact Or.inr ⟨(tick (tick r1 s1).2 { (tick r1 s1).1 with exit_signal := 0 }).1,
        (tick (tick r1 s1).2 { (tick r1 s1).1 with exit_signal := 0 }).2,
        sigint_wait_of_loop sched s s1 r1 hl, a3.trans (a2.trans hfd),
        b3.trans (b2.trans hbl), c3.trans (c2.trans hcl), by omega⟩

/-! ## Lemmas on the orchestrator -/

theorem register_sigint_ok (env : Env) (s : State) (h : ¬ env Call.sigaction_SIGINT < 0) :
    register_sigint env s = Result.returned (logged s [Call.sigaction_SIGINT]) := by
  simp [register_sigint, syscall, h, logged]

theorem create_can_socket_ok (env : Env) (s : State) (h1 : ¬ env Call.socket < 0)
    (h2 : ¬ env Call.ioctl_SIOCGIFINDEX < 0) (h3 : ¬ env Call.bind < 0)
    (h4 : ¬ env Call.fcntl_F_SETOWN < 0) (h5 : ¬ env Call.fcntl_F_SETFL < 0) :
    create_can_socket env s = Result.returned (logged { s with socket_fd := env Call.socket }
      [Call.socket, Call.ioctl_SIOCGIFINDEX, Call.bind, Call.fcntl_F_SETOWN,
       Call.fcntl_F_SETFL]) := by
  simp [create_can_socket, syscall, h1, h2, h3, h4, h5, logged]

theorem register_sigio_ok (env : Env) (s : State) (h : ¬ env Call.sigaction_SIGIO < 0) :
    register_sigio env s = Result.returned (logged s [Call.sigaction_SIGIO]) := by
  simp [register_sigio, syscall, h, logged]

theorem block_sigio_ok (env : Env) (s : State) (h : ¬ env Call.sigprocmask_SIG_BLOCK < 0) :
    block_sigio env sigemptyset sigemptyset s =
      Result.returned ({ SIGIO }, s.blocked,
        logged { s with blocked := s.blocked ∪ { SIGIO } } [Call.sigprocmask_SIG_BLOCK]) := by
  simp [block_sigio, sigprocmask, syscall, h, logged, sigaddset, sigemptyset]

theorem unblock_sigio_ok (env : Env) (mask : sigset_t) (s : State)
    (h : ¬ env Call.sigprocmask_SIG_SETMASK < 0) :
    unblock_sigio env mask s =
      Result.returned (logged { s with blocked := mask } [Call.sigprocmask_SIG_SETMASK]) := by
  simp [unblock_sigio, sigprocmask, syscall, h, logged]

/-- Outcome of the program.  Either it waits for ever, and then the schedule
holds fewer than ten deliveries; or it ends, the exit code is 0 when no
tested call fails and 1 otherwise, and the log holds the tested calls up to
the first failing one, followed by `close` when none fails. -/
theorem main_outcome (env : Env) (sched : List Bool) (M : sigset_t) :
    (main env sched M = none ∧ sched.count true < 10) ∨
    ∃ s, main env sched M = some (if first_failure env = 9 then 0 else 1, s) ∧
      s.calls = setup_calls.take (first_failure env + 1) ++
        (if first_failure env = 9 then [Call.close] else []) ∧
      (first_failure env = 9 → s.socket_fd = -1 ∧ s.blocked = M) := by
  by_cases p1 : 0 ≤ env Call.sigaction_SIGINT
  swap
  · have n1 : env Call.sigaction_SIGINT < 0 := by omega
    right
    simp [main, example_, bind, Result.bind, register_sigint, syscall, n1, p1, first_failure,
      setup_calls, State.initial]
  have q1 : ¬ env Call.sigaction_SIGINT < 0 := by omega
  have okA : ∀ s, register_sigint env s = Result.returned (logged s [Call.sigaction_SIGINT]) :=
    fun s => register_sigint_ok env s q1
  rcases sigint_wait_cases sched (logged (State.initial M) [Call.sigaction_SIGINT]) with
    ⟨hA, cA⟩ | ⟨sA, rA, hA, fdA, blA, clA, cntA⟩
  · left
    refine ⟨?_, by omega⟩
    simp only [main, example_, bind, Result.bind, okA, hA]
  by_cases p2 : 0 ≤ env Call.socket
  swap
  · have n2 : env Call.socket < 0 := by omega
    right
    simp only [main, example_, bind, Result.bind, okA, hA]
    simp [create_can_socket, syscall, n2, p1, p2, clA, logged, first_failure,
      setup_calls, State.initial]
  have q2 : ¬ env Call.socket < 0 := by omega
  by_cases p3 : 0 ≤ env Call.ioctl_SIOCGIFINDEX
  swap
  · have n3 : env Call.ioctl_SIOCGIFINDEX < 0 := by omega
    right
    simp only [main, example_, bind, Result.bind, okA, hA]
    simp [create_can_socket, syscall, q2, n3, p1, p2, p3, clA, logged, first_failure,
      setup_calls, State.initial]
  have q3 : ¬ env Call.ioctl_SIOCGIFINDEX < 0 := by omega
  by_cases p4 : 0 ≤ env Call.bind
  swap
  · have n4 : env Call.bind < 0 := by omega
    right
    simp only [main, example_, bind, Result.bind, okA, hA]
    simp [create_can_socket, syscall, q2, q3, n4, p1, p2, p3, p4, clA, logged, first_failure,
      setup_calls, State.initial]
  have q4 : ¬ env Call.bind < 0 := by omega
  by_cases p5 : 0 ≤ env Call.fcntl_F_SETOWN
  swap
  · have n5 : env Call.fcntl_F_SETOWN < 0 := by omega
    right
    simp only [main, example_, bind, Result.bind, okA, hA]
    simp [create_can_socket, syscall, q2, q3, q4, n5, p1, p2, p3, p4, p5, clA, logged,
      first_failure, setup_calls, State.initial]
  have q5 : ¬ env Call.fcntl_F_SETOWN < 0 := by omega
  by_cases p6 : 0 ≤ env Call.fcntl_F_SETFL
  swap
  · have n6 : env Call.fcntl_F_SETFL < 0 := by omega
    right
    simp only [main, example_, bind, Result.bind, okA, hA]
    simp [create_can_socket, syscall, q2, q3, q4, q5, n6, p1, p2, p3, p4, p5, p6, clA, logged,
      first_failure, setup_calls, State.initial]
  have q6 : ¬ env Call.fcntl_F_SETFL < 0 := by omega
  have okB : ∀ s, create_can_socket env s =
      Result.returned (logged { s with socket_fd := env Call.socket }
        [Call.socket, Call.ioctl_SIOCGIFINDEX, Call.bind, Call.fcntl_F_SETOWN,
         Call.fcntl_F_SETFL]) :=
    fun s => create_can_socket_ok env s q2 q3 q4 q5 q6
  by_cases p7 : 0 ≤ env Call.sigaction_SIGIO
  swap
  · have n7 : env Call.sigaction_SIGIO < 0 := by omega
    right
    simp only [main, example_, bind, Result.bind, okA, hA, okB]
    simp [register_sigio, syscall, n7, p1, p2, p3, p4, p5, p6, p7, clA, logged,
      first_failure, setup_calls, State.initial]
  have q7 : ¬ env Call.sigaction_SIGIO < 0 := by omega
  have okC : ∀ s, register_sigio env s = Result.returned (logged s [Call.sigaction_SIGIO]) :=
    fun s => register_sigio_ok env s q7
  rcases sigint_wait_cases rA
      (logged (logged { sA with socket_fd := env Call.socket }
        [Call.socket, Call.ioctl_SIOCGIFINDEX, Call.bind, Call.fcntl_F_SETOWN,
         Call.fcntl_F_SETFL]) [Call.sigaction_SIGIO]) with
    ⟨hB, cB⟩ | ⟨sB, rB, hB, fdB, blB, clB, cntB⟩
  · left
    refine ⟨?_, by omega⟩
    simp only [main, example_, bind, Result.bind, okA, hA, okB, okC, hB]
  by_cases p8 : 0 ≤ env Call.sigprocmask_SIG_BLOCK
  swap
  · have n8 : env Call.sigprocmask_SIG_BLOCK < 0 := by omega
    right
    simp only [main, example_, bind, Result.bind, okA, hA, okB, okC, hB]
    simp [block_sigio, sigprocmask, syscall, n8, p1, p2, p3, p4, p5, p6, p7, p8, clA, clB,
      logged, first_failure, setup_calls, State.initial]
  have q8 : ¬ env Call.sigprocmask_SIG_BLOCK < 0 := by omega
  have okD : ∀ s, block_sigio env sigemptyset sigemptyset s =
      Result.returned ({ SIGIO }, s.blocked,
        logged { s with blocked := s.blocked ∪ { SIGIO } } [Call.sigprocmask_SIG_BLOCK]) :=
    fun s => block_sigio_ok env s q8
  rcases sigint_wait_cases rB
      (logged { sB with blocked := sB.blocked ∪ { SIGIO } } [Call.sigprocmask_SIG_BLOCK]) with
    ⟨hC, cC⟩ | ⟨sC, rC, hC, fdC, blC, clC, cntC⟩
  · left
    refine ⟨?_, by omega⟩
    simp only [main, example_, bind, Result.bind, okA, hA, okB, okC, hB, okD, hC]
  by_cases p9 : 0 ≤ env Call.sigprocmask_SIG_SETMASK
  swap
  · have n9 : env Call.sigprocmask_SIG_SETMASK < 0 := by omega
    right
    simp only [main, example_, bind, Result.bind, okA, hA, okB, okC, hB, okD, hC]
    simp [unblock_sigio, sigprocmask, syscall, n9, p1, p2, p3, p4, p5, p6, p7, p8, p9, clA,
      clB, clC, logged, first_failure, setup_calls, State.initial]
  have q9 : ¬ env Call.sigprocmask_SIG_SETMASK < 0 := by omega
  have okE : ∀ mask s, unblock_sigio env mask s =
      Result.returned (logged { s with blocked := mask } [Call.sigprocmask_SIG_SETMASK]) :=
    fun mask s => unblock_sigio_ok env mask s q9
  rcases sigint_wait_cases rC
      (logged { sC with blocked := sB.blocked } [Call.sigprocmask_SIG_SETMASK]) with
    ⟨hD, cD⟩ | ⟨sD, rD, hD, fdD, blD, clD, cntD⟩
  · left
    refine ⟨?_, by omega⟩
    simp only [main, example_, bind, Result.bind, okA, hA, okB, okC, hB, okD, hC, okE, hD]
  have hfd : sD.socket_fd = env Call.socket := by
    rw [fdD]; simp only [logged]; rw [fdC]; simp only [logged]; rw [fdB]; simp only [logged]
  have hfd2 : sD.socket_fd ≥ 0 := by omega
  right
  simp only [main, example_, bind, Result.bind, okA, hA, okB, okC, hB, okD, hC, okE, hD, pure]
  simp [release_socket, syscall, hfd2, p1, p2, p3, p4, p5, p6, p7, p8, p9, clA, clB, clC, clD,
    blA, blB, blC, blD, logged, first_failure, setup_calls, State.initial]

theorem takeWhile_length_eq_iff {α : Type} (p : α → Bool) (l : List α) :
    (l.takeWhile p).length = l.length ↔ ∀ x ∈ l, p x = true := by
  induction l with
  | nil => simp
  | cons a t ih =>
    by_cases ha : p a = true
    · simp [List.takeWhile_cons, ha, ih]
    · simp [List.takeWhile_cons, ha]

theorem takeWhile_first_fail {α : Type} (p : α → Bool) (pre : List α) (c : α) (post : List α)
    (hpre : ∀ x ∈ pre, p x = true) (hc : p c = false) :
    (pre ++ c :: post).takeWhile p = pre := by
  induction pre with
  | nil => simp [List.takeWhile_cons, hc]
  | cons a t ih =>
    have ha : p a = true := hpre a (List.mem_cons_self _ _)
    have ht : ∀ x ∈ t, p x = true := fun x hx => hpre x (List.mem_cons_of_mem _ hx)
    simp [List.takeWhile_cons, ha, ih ht]

theorem first_failure_eq_nine (env : Env) :
    first_failure env = 9 ↔ ∀ c ∈ setup_calls, 0 ≤ env c := by
  have h := takeWhile_length_eq_iff (fun c => decide (0 ≤ env c)) setup_calls
  have h9 : setup_calls.length = 9 := rfl
  rw [h9] at h
  simpa [first_failure] using h

theorem first_failure_of_split (env : Env) (pre : List Call) (c : Call) (post : List Call)
    (hsplit : setup_calls = pre ++ c :: post) (hpre : ∀ d ∈ pre, 0 ≤ env d)
    (hc : env c < 0) :
    first_failure env = pre.length ∧ first_failure env ≠ 9 ∧
      setup_calls.take (first_failure env + 1) = pre ++ [c] := by
  have hf : first_failure env = pre.length := by
    unfold first_failure
    rw [hsplit, takeWhile_first_fail _ pre c post (by simpa using hpre) (by simpa using hc)]
  have h9 : setup_calls.length = 9 := rfl
  have hlen : pre.length + 1 + post.length = 9 := by
    rw [← h9, hsplit]; simp; omega
  refine ⟨hf, by omega, ?_⟩
  rw [hf, hsplit]
  simp [List.take_append_eq_append_take]

/-! ## The claims -/

/-- C1, drain completeness.  With a valid handle (`socket_fd >= 0`), when the
kernel answers `N` reads with `CAN_MTU` and the next one with `r <= 0`, one
invocation of `io_handler` performs exactly these `N + 1` reads and leaves
every later read result untouched; its system calls are `N` times
(read, write of `data_msg`), then (read, write of `nodata_msg`), then the
write of `done_msg`; its status symbols are `N` times `+`, then `_`, then
`|`. -/
theorem io_handler_drain_complete (N : Nat) (sig : Nat) (s : State) (r : Int)
    (rest : List Int) (hfd : 0 ≤ s.socket_fd) (hr : r ≤ 0) :
    ∃ trace, io_handler sig (List.replicate N CAN_MTU ++ r :: rest) s = some (trace, rest) ∧
      trace =
        (List.replicate N
          [Event.read s.socket_fd CAN_MTU CAN_MTU,
           Event.write STDOUT_FILENO data_msg 2]).flatten ++
        [Event.read s.socket_fd CAN_MTU r, Event.write STDOUT_FILENO nodata_msg 2,
         Event.write STDOUT_FILENO done_msg 2] ∧
      symbols trace = List.replicate N '+' ++ ['_', '|'] ∧
      reads_performed trace = N + 1 := by
  have hpre : ∀ x ∈ List.replicate N CAN_MTU, 0 < x := by
    intro x hx
    rw [List.eq_of_mem_replicate hx]
    decide
  have hne : r ≠ CAN_MTU := by
    have : CAN_MTU = 16 := rfl
    omega
  refine ⟨_, io_handler_valid sig s _ r rest hfd hpre hr, ?_, ?_, ?_⟩
  · simp [attempts_append, attempts_replicate_full, attempts, read_attempt, hne, done_event,
      sizeof, nodata_msg, done_msg]
  · simp [symbols_append, symbols_attempts, symbols_done_event, attempt_symbol, hne]
  · simp [reads_performed_append, reads_performed_attempts, reads_performed_done_event]

/-- Witness of C1 at `N = 3`, `socket_fd = 3`, last read result `-1`: the
symbols are `+ + + _ |` and four reads are performed. -/
theorem io_handler_drain_complete_witness :
    ∃ trace, io_handler SIGIO [16, 16, 16, -1] (State.mk 3 0 ∅ []) = some (trace, []) ∧
      trace =
        [Event.read 3 16 16, Event.write 1 data_msg 2,
         Event.read 3 16 16, Event.write 1 data_msg 2,
         Event.read 3 16 16, Event.write 1 data_msg 2,
         Event.read 3 16 (-1), Event.write 1 nodata_msg 2,
         Event.write 1 done_msg 2] ∧
      symbols trace = ['+', '+', '+', '_', '|'] ∧
      reads_performed trace = 4 :=
  io_handler_drain_complete 3 SIGIO (State.mk 3 0 ∅ []) (-1) [] (by decide) (by decide)

/-- C2, invalid handle.  When `socket_fd < 0`, `io_handler` performs no read
(every read result is left unused) and its only system call is the write of
`done_msg`: the only status symbol is `|`. -/
theorem io_handler_invalid_handle (sig : Nat) (reads : List Int) (s : State)
    (hfd : s.socket_fd < 0) :
    ∃ trace, io_handler sig reads s = some (trace, reads) ∧
      trace = [Event.write STDOUT_FILENO done_msg 2] ∧
      reads_performed trace = 0 ∧
      symbols trace = ['|'] := by
  refine ⟨_, io_handler_invalid sig s reads hfd, by decide, ?_, ?_⟩
  · exact reads_performed_done_event
  · exact symbols_done_event

/-- Witness of C2 at `socket_fd = -1` with two frames pending. -/
theorem io_handler_invalid_handle_witness :
    ∃ trace, io_handler SIGIO [16, 16] (State.initial ∅) = some (trace, [16, 16]) ∧
      trace = [Event.write STDOUT_FILENO done_msg 2] ∧
      reads_performed trace = 0 ∧
      symbols trace = ['|'] :=
  io_handler_invalid_handle SIGIO [16, 16] (State.initial ∅) (by decide)

/-- C3, terminal symbol exactly once and last.  For every handle state and
every list of read results on which the invocation ends (the handle is
invalid, or some result is `<= 0`), `io_handler` returns; its system calls
are, for each read result it consumed, the read followed by one write of a
per-attempt symbol (`+` for `CAN_MTU`, `_` otherwise), and then the write of
`done_msg` as the last call.  So `|` occurs exactly once among the symbols,
in last place, and the per-attempt symbols are as many as the reads. -/
theorem io_handler_terminal_once_and_last (sig : Nat) (reads : List Int) (s : State)
    (hstop : s.socket_fd < 0 ∨ ∃ r ∈ reads, r ≤ 0) :
    ∃ trace consumed unused,
      io_handler sig reads s = some (trace, unused) ∧
      reads = consumed ++ unused ∧
      trace = (consumed.map (read_attempt s.socket_fd)).flatten ++
        [Event.write STDOUT_FILENO done_msg 2] ∧
      symbols trace =
        consumed.map (fun r => if r = CAN_MTU then '+' else '_') ++ ['|'] ∧
      (symbols trace).count '|' = 1 ∧
      (symbols trace).getLast? = some '|' ∧
      trace.getLast? = some (Event.write STDOUT_FILENO done_msg 2) ∧
      (symbols trace).dropLast.length = reads_performed trace ∧
      reads_performed trace = consumed.length := by
  have key : ∀ consumed : List Int,
      symbols (attempts s.socket_fd consumed ++ [done_event]) =
        consumed.map attempt_symbol ++ ['|'] := by
    intro c
    simp [symbols_append, symbols_attempts, symbols_done_event]
  have fin : ∀ (consumed unused : List Int),
      io_handler sig reads s = some (attempts s.socket_fd consumed ++ [done_event], unused) →
      reads = consumed ++ unused →
      ∃ trace consumed unused,
        io_handler sig reads s = some (trace, unused) ∧
        reads = consumed ++ unused ∧
        trace = (consumed.map (read_attempt s.socket_fd)).flatten ++
          [Event.write STDOUT_FILENO done_msg 2] ∧
        symbols trace =
          consumed.map (fun r => if r = CAN_MTU then '+' else '_') ++ ['|'] ∧
        (symbols trace).count '|' = 1 ∧
        (symbols trace).getLast? = some '|' ∧
        trace.getLast? = some (Event.write STDOUT_FILENO done_msg 2) ∧
        (symbols trace).dropLast.length = reads_performed trace ∧
        reads_performed trace = consumed.length := by
    intro consumed unused hrun hsplit
    have hreads : reads_performed (attempts s.socket_fd consumed ++ [done_event]) =
        consumed.length := by
      simp [reads_performed_append, reads_performed_attempts, reads_performed_done_event]
    refine ⟨_, consumed, unused, hrun, hsplit, ?_, ?_, ?_, ?_, ?_, ?_, hreads⟩
    · rw [attempts_eq_flatten]; rfl
    · rw [key]; rfl
    · rw [key, List.count_append, count_done_attempt_symbols]; decide
    · rw [key]; simp
    · simp [done_event, sizeof, done_msg]
    · rw [key, hreads]; simp
  by_cases hfd : s.socket_fd < 0
  · exact fin [] reads (io_handler_invalid sig s reads hfd) rfl
  · have hex : ∃ r ∈ reads, r ≤ 0 := by
      rcases hstop with h | h
      · exact absurd h hfd
      · exact h
    obtain ⟨pre, r, rest, hl, hp, hr⟩ := split_at_first_nonpos reads hex
    refine fin (pre ++ [r]) rest ?_ (by simp [hl])
    rw [hl]
    exact io_handler_valid sig s pre r rest (by omega) hp hr

/-- Witness of C3: a short read (5 bytes), a full frame, then an error
return: three reads, symbols `_ + _ |`. -/
theorem io_handler_terminal_once_and_last_witness :
    ∃ trace consumed unused,
      io_handler SIGIO [5, 16, -1, 16] (State.mk 3 0 ∅ []) = some (trace, unused) ∧
      [5, 16, -1, 16] = consumed ++ unused ∧
      trace = (consumed.map (read_attempt (State.mk 3 0 ∅ []).socket_fd)).flatten ++
        [Event.write STDOUT_FILENO done_msg 2] ∧
      symbols trace =
        consumed.map (fun r => if r = CAN_MTU then '+' else '_') ++ ['|'] ∧
      (symbols trace).count '|' = 1 ∧
      (symbols trace).getLast? = some '|' ∧
      trace.getLast? = some (Event.write STDOUT_FILENO done_msg 2) ∧
      (symbols trace).dropLast.length = reads_performed trace ∧
      reads_performed trace = consumed.length :=
  io_handler_terminal_once_and_last SIGIO [5, 16, -1, 16] (State.mk 3 0 ∅ [])
    (Or.inr ⟨-1, by decide, by decide⟩)

/-- C4, mask round-trip.  For every blocked set `M` of the process
(`s.blocked`), when both `sigprocmask` calls succeed: `block_sigio`, called
with an empty `mask`, returns with `mask = {SIGIO}`, `orig_mask = M` and the
blocked set `M ∪ {SIGIO}`; `unblock_sigio(&orig_mask)`, run in any later state
with that blocked set, returns with the blocked set equal to `M`. -/
theorem block_unblock_round_trip (env : Env) (s : State) (orig0 : sigset_t)
    (hb : 0 ≤ env Call.sigprocmask_SIG_BLOCK)
    (hu : 0 ≤ env Call.sigprocmask_SIG_SETMASK) :
    ∃ s1, block_sigio env sigemptyset orig0 s = Result.returned ({ SIGIO }, s.blocked, s1) ∧
      s1.blocked = s.blocked ∪ { SIGIO } ∧
      ∀ s1b : State, s1b.blocked = s1.blocked →
        ∃ s2, unblock_sigio env s.blocked s1b = Result.returned s2 ∧
          s2.blocked = s.blocked := by
  have hb2 : ¬ env Call.sigprocmask_SIG_BLOCK < 0 := by omega
  have hu2 : ¬ env Call.sigprocmask_SIG_SETMASK < 0 := by omega
  refine ⟨{ s with calls := s.calls ++ [Call.sigprocmask_SIG_BLOCK],
                   blocked := s.blocked ∪ { SIGIO } }, ?_, ?_, ?_⟩
  · simp [block_sigio, sigprocmask, syscall, hb2, sigaddset, sigemptyset]
  · simp
  · intro s1b _
    simp [unblock_sigio, sigprocmask, syscall, hu2]

/-- Witness of C4: the process starts with SIGINT and signal 10 blocked. -/
theorem block_unblock_round_trip_witness :
    ∃ s1, block_sigio (fun _ => 0) sigemptyset ∅ (State.mk 3 0 {2, 10} []) =
        Result.returned ({ SIGIO }, (State.mk 3 0 {2, 10} []).blocked, s1) ∧
      s1.blocked = (State.mk 3 0 {2, 10} []).blocked ∪ { SIGIO } ∧
      ∀ s1b : State, s1b.blocked = s1.blocked →
        ∃ s2, unblock_sigio (fun _ => 0) (State.mk 3 0 {2, 10} []).blocked s1b =
            Result.returned s2 ∧
          s2.blocked = (State.mk 3 0 {2, 10} []).blocked :=
  block_unblock_round_trip (fun _ => 0) (State.mk 3 0 {2, 10} []) ∅ (by decide) (by decide)

/-- C6 as stated fails: SIGINT arrives before the first test, the loop ends,
the flag is reset, and SIGINT arrives once more before `sigint_wait`
returns; on return `exit_signal` is 1, not 0. -/
theorem sigint_wait_returns_with_flag_set :
    sigint_wait [true, false, true] (State.initial ∅) =
      Result.returned ({ State.initial ∅ with exit_signal := 1 }, []) := by
  decide

/-- C6 amended, the flag protocol.  For every schedule of deliveries and
every state:
* `sigint_wait` returns only when its loop ended at a test that read
  `exit_signal != 0`; it changes nothing but the flag; on return the flag is
  1 when `terminate_handler` ran between the assignment `exit_signal = 0`
  and the return, and 0 otherwise;
* entered with the flag at 0, it does not return when no delivery comes;
* it returns whenever a delivery comes;
* entered with the flag set, it returns at its first test whatever the
  schedule, with the flag reset; so an invocation of `terminate_handler`
  that left the flag at 1 on return is kept for the next wait, which
  returns without any further delivery;
* entered with the flag at 0, one single delivery while the loop waits makes
  it return with the flag at 0, and the next wait does not return;
* `terminate_handler` sets the flag to 1 and changes nothing else, and no
  other function of the orchestrator changes the flag. -/
theorem sigint_wait_flag_protocol (env : Env) (sched : List Bool) (s : State) :
    (∀ s2 rest, sigint_wait sched s = Result.returned (s2, rest) →
      ∃ s1 r1, sigint_wait_loop sched s = some (s1, r1) ∧ s1.exit_signal ≠ 0 ∧
        rest = r1.drop 2 ∧
        s2 = { s with exit_signal := if (r1.drop 1).head? = some true then 1 else 0 }) ∧
    (s.exit_signal = 0 → (∀ b ∈ sched, b = false) → sigint_wait sched s = Result.waiting) ∧
    (1 ≤ sched.count true → ∃ s2 rest, sigint_wait sched s = Result.returned (s2, rest)) ∧
    (s.exit_signal ≠ 0 → ∃ s2 rest, sigint_wait sched s = Result.returned (s2, rest)) ∧
    (s.exit_signal ≠ 0 →
      sigint_wait sched s =
        Result.returned
          ({ s with exit_signal := if (sched.drop 2).head? = some true then 1 else 0 },
            sched.drop 3)) ∧
    (∀ s2 rest, sigint_wait sched s = Result.returned (s2, rest) → s2.exit_signal ≠ 0 →
      ∀ next : List Bool, ∃ s3 rest3,
        sigint_wait next s2 = Result.returned (s3, rest3) ∧ rest3 = next.drop 3 ∧
        s3 = { s with exit_signal := if (next.drop 2).head? = some true then 1 else 0 }) ∧
    (s.exit_signal = 0 → ∀ k m : Nat,
      sigint_wait (List.replicate k false ++ true :: List.replicate m false) s =
        Result.returned ({ s with exit_signal := 0 }, List.replicate (m - 2) false) ∧
      sigint_wait (List.replicate (m - 2) false) { s with exit_signal := 0 } =
        Result.waiting) ∧
    terminate_handler SIGINT s = { s with exit_signal := 1 } ∧
    flag_after id (register_sigint env s) = some s.exit_signal ∧
    flag_after id (create_can_socket env s) = some s.exit_signal ∧
    flag_after id (register_sigio env s) = some s.exit_signal ∧
    (∀ mask orig_mask,
      flag_after (fun r => r.2.2) (block_sigio env mask orig_mask s) = some s.exit_signal) ∧
    (∀ mask, flag_after id (unblock_sigio env mask s) = some s.exit_signal) ∧
    (release_socket env s).exit_signal = s.exit_signal := by
  have first : ∀ s2 rest, sigint_wait sched s = Result.returned (s2, rest) →
      ∃ s1 r1, sigint_wait_loop sched s = some (s1, r1) ∧ s1.exit_signal ≠ 0 ∧
        rest = r1.drop 2 ∧
        s2 = { s with exit_signal := if (r1.drop 1).head? = some true then 1 else 0 } := by
    intro s2 rest h
    cases hl : sigint_wait_loop sched s with
    | none => simp [sigint_wait, hl] at h
    | some p =>
      obtain ⟨s1, r1⟩ := p
      obtain ⟨hne, hfd, hbl, hcl, _⟩ := sigint_wait_loop_some sched s s1 r1 hl
      rw [sigint_wait_of_loop sched s s1 r1 hl] at h
      have h2 : tick (tick r1 s1).2 { (tick r1 s1).1 with exit_signal := 0 } = (s2, rest) := by
        simpa using h
      obtain ⟨a2, b2, c2⟩ := tick_frame r1 s1
      obtain ⟨a3, b3, c3⟩ := tick_frame (tick r1 s1).2 { (tick r1 s1).1 with exit_signal := 0 }
      have e3 := tick_exit_signal (tick r1 s1).2 { (tick r1 s1).1 with exit_signal := 0 }
      have r3 := tick_rest (tick r1 s1).2 { (tick r1 s1).1 with exit_signal := 0 }
      rw [h2] at a3 b3 c3 e3 r3
      rw [tick_rest] at e3 r3
      refine ⟨s1, r1, rfl, hne, ?_, ?_⟩
      · simpa using r3
      · have hs := state_eq_of_frame s s2 (a3.trans (a2.trans hfd)) (b3.trans (b2.trans hbl))
          (c3.trans (c2.trans hcl))
        rw [hs]
        simp only [] at e3
        rw [e3]
  refine ⟨first, ?_, ?_, ?_, ?_, ?_, ?_, rfl, ?_, ?_, ?_, ?_, ?_, ?_⟩
  · intro h0 hq
    simp [sigint_wait, sigint_wait_loop_quiet sched s h0 hq]
  · intro h
    obtain ⟨s2, rest, h2, _⟩ := sigint_wait_returns sched s h
    exact ⟨s2, rest, h2⟩
  · intro h
    exact ⟨_, _, sigint_wait_latched sched s h⟩
  · intro h
    exact sigint_wait_latched sched s h
  · intro s2 rest hret hne next
    obtain ⟨s1, r1, _, _, _, hs2⟩ := first s2 rest hret
    refine ⟨_, _, sigint_wait_latched next s2 hne, rfl, ?_⟩
    rw [hs2]
  · intro h0 k m
    constructor
    · rw [sigint_wait_of_loop _ s _ _ (sigint_wait_loop_one k (List.replicate m false) s h0)]
      rw [tick_quiet, tick_quiet]
      simp [Nat.sub_sub]
    · have hq : ∀ b ∈ List.replicate (m - 2) false, b = false :=
        fun b hb => List.eq_of_mem_replicate hb
      simp [sigint_wait, sigint_wait_loop_quiet _ { s with exit_signal := 0 } rfl hq]
  · by_cases h : env Call.sigaction_SIGINT < 0 <;>
      simp [register_sigint, syscall, h, flag_after]
  · by_cases h1 : env Call.socket < 0 <;>
    by_cases h2 : env Call.ioctl_SIOCGIFINDEX < 0 <;>
    by_cases h3 : env Call.bind < 0 <;>
    by_cases h4 : env Call.fcntl_F_SETOWN < 0 <;>
    by_cases h5 : env Call.fcntl_F_SETFL < 0 <;>
      simp [create_can_socket, syscall, h1, h2, h3, h4, h5, flag_after]
  · by_cases h : env Call.sigaction_SIGIO < 0 <;>
      simp [register_sigio, syscall, h, flag_after]
  · intro mask orig_mask
    by_cases h : env Call.sigprocmask_SIG_BLOCK < 0 <;>
      simp [block_sigio, sigprocmask, syscall, h, flag_after]
  · intro mask
    by_cases h : env Call.sigprocmask_SIG_SETMASK < 0 <;>
      simp [unblock_sigio, sigprocmask, syscall, h, flag_after]
  · by_cases h : s.socket_fd ≥ 0 <;> simp [release_socket, syscall, h]

/-- Witness of C6 amended.  Two quiet ticks, one delivery, three quiet ticks:
the wait returns with the flag at 0 and one tick left, and the next wait on
that tick does not return.  And a wait entered with the flag at 1, as the
late delivery of the counterexample leaves it, returns with no delivery at
all, the flag reset. -/
theorem sigint_wait_flag_protocol_witness :
    (sigint_wait (List.replicate 2 false ++ true :: List.replicate 3 false) (State.initial ∅) =
        Result.returned ({ State.initial ∅ with exit_signal := 0 },
          List.replicate (3 - 2) false) ∧
      sigint_wait (List.replicate (3 - 2) false) { State.initial ∅ with exit_signal := 0 } =
        Result.waiting) ∧
    sigint_wait [] (State.mk (-1) 1 ∅ []) = Result.returned (State.mk (-1) 0 ∅ [], []) :=
  ⟨(sigint_wait_flag_protocol (fun _ => 0) [] (State.initial ∅)).2.2.2.2.2.2.1 rfl 2 3,
   (sigint_wait_flag_protocol (fun _ => 0) [] (State.mk (-1) 1 ∅ [])).2.2.2.2.1 (by decide)⟩

/-- C7, idempotent close.  The release step calls `close` only when
`socket_fd >= 0` and then sets `socket_fd` to -1; on a state with
`socket_fd < 0` it issues no call and leaves the state as it is; applied
twice it gives the same state as applied once. -/
theorem release_socket_idempotent (env : Env) (s : State) :
    (0 ≤ s.socket_fd →
      release_socket env s = { s with socket_fd := -1, calls := s.calls ++ [Call.close] }) ∧
    (s.socket_fd < 0 → release_socket env s = s) ∧
    (release_socket env s).socket_fd < 0 ∧
    release_socket env (release_socket env s) = release_socket env s := by
  by_cases h : s.socket_fd ≥ 0
  · have hn : ¬ s.socket_fd < 0 := by omega
    simp [release_socket, h, hn, syscall]
  · have hn : s.socket_fd < 0 := by omega
    have h0 : ¬ 0 ≤ s.socket_fd := by omega
    simp [release_socket, h0, hn]

/-- Witness of C7: releasing an open handle twice gives the state that
releasing it once gives. -/
theorem release_socket_idempotent_witness :
    release_socket (fun _ => 0) (release_socket (fun _ => 0) (State.mk 3 0 ∅ [])) =
      release_socket (fun _ => 0) (State.mk 3 0 ∅ []) :=
  (release_socket_idempotent (fun _ => 0) (State.mk 3 0 ∅ [])).2.2.2

/-- C8, bytes of the status emissions.  An invocation with a valid handle
that reads one full frame and then gets `-1` emits `+`, `_` and `|`; each of
the three `write` calls passes `sizeof` of a two-element array as its count,
so six bytes reach standard output: every symbol is followed by a NUL. -/
theorem io_handler_stdout_bytes :
    io_handler SIGIO [16, -1] (State.mk 3 0 ∅ []) =
      some ([Event.read 3 16 16, Event.write 1 ['+', Char.ofNat 0] 2,
             Event.read 3 16 (-1), Event.write 1 ['_', Char.ofNat 0] 2,
             Event.write 1 ['|', Char.ofNat 0] 2], []) ∧
    (io_handler SIGIO [16, -1] (State.mk 3 0 ∅ [])).map (fun p => stdout_bytes p.1) =
      some ['+', Char.ofNat 0, '_', Char.ofNat 0, '|', Char.ofNat 0] ∧
    sizeof data_msg = 2 ∧ sizeof nodata_msg = 2 ∧ sizeof done_msg = 2 := by
  decide

/-- C9, fail-fast setup.  When the operator signals often enough for the four
waits (ten deliveries suffice), the program ends.  Whenever it ends: its exit
code is 0 exactly when every tested system call succeeds, and 1 otherwise;
when all succeed the calls issued are the nine tested calls in order, then
`close`; when `c` is the first call that fails, the calls issued are the
calls before `c` and `c`, nothing later.  `create_can_socket` returns
exactly when `socket`, `ioctl`, `bind`, `fcntl(F_SETOWN)` and
`fcntl(F_SETFL)` all succeed. -/
theorem main_fail_fast (env : Env) (sched : List Bool) (M : sigset_t) :
    (10 ≤ sched.count true → ∃ code s, main env sched M = some (code, s)) ∧
    (∀ code s, main env sched M = some (code, s) →
      (code = 0 ↔ ∀ c ∈ setup_calls, 0 ≤ env c) ∧
      (code ≠ 0 → code = 1) ∧
      ((∀ c ∈ setup_calls, 0 ≤ env c) → s.calls = setup_calls ++ [Call.close]) ∧
      (∀ pre c post, setup_calls = pre ++ c :: post → (∀ d ∈ pre, 0 ≤ env d) → env c < 0 →
        code = 1 ∧ s.calls = pre ++ [c])) ∧
    (∀ s0, (∃ s1, create_can_socket env s0 = Result.returned s1) ↔
      (0 ≤ env Call.socket ∧ 0 ≤ env Call.ioctl_SIOCGIFINDEX ∧ 0 ≤ env Call.bind ∧
        0 ≤ env Call.fcntl_F_SETOWN ∧ 0 ≤ env Call.fcntl_F_SETFL)) := by
  refine ⟨?_, ?_, ?_⟩
  · intro hsched
    rcases main_outcome env sched M with ⟨_, hlt⟩ | ⟨s, hmain, _⟩
    · omega
    · exact ⟨_, s, hmain⟩
  · intro code s hrun
    rcases main_outcome env sched M with ⟨hnone, _⟩ | ⟨s2, hmain, hcalls, _⟩
    · rw [hnone] at hrun
      cases hrun
    rw [hmain] at hrun
    obtain ⟨hcode, hs⟩ := Prod.mk.inj (Option.some.inj hrun)
    subst hs
    subst hcode
    refine ⟨?_, ?_, ?_, ?_⟩
    · rw [← first_failure_eq_nine]
      by_cases h : first_failure env = 9 <;> simp [h]
    · intro h
      by_cases h9 : first_failure env = 9
      · simp [h9] at h
      · simp [h9]
    · intro hall
      have h9 := (first_failure_eq_nine env).mpr hall
      rw [hcalls, h9]
      rfl
    · intro pre c post hsplit hpre hc
      obtain ⟨_, hne, htake⟩ := first_failure_of_split env pre c post hsplit hpre hc
      rw [hcalls, htake]
      simp [hne]
  · intro s0
    by_cases h1 : env Call.socket < 0 <;>
    by_cases h2 : env Call.ioctl_SIOCGIFINDEX < 0 <;>
    by_cases h3 : env Call.bind < 0 <;>
    by_cases h4 : env Call.fcntl_F_SETOWN < 0 <;>
    by_cases h5 : env Call.fcntl_F_SETFL < 0 <;>
      (simp [create_can_socket, syscall, h1, h2, h3, h4, h5]; try omega)

/-- Witness of C9: `bind` fails (`-1`), every other call succeeds, and the
operator signals at every tick: the program ends with exit code 1 after
`sigaction(SIGINT)`, `socket`, `ioctl` and `bind`. -/
theorem main_fail_fast_witness :
    main (fun c => if c = Call.bind then -1 else 3) (List.replicate 10 true) ∅ =
        some (1, State.mk 3 1 ∅
          [Call.sigaction_SIGINT, Call.socket, Call.ioctl_SIOCGIFINDEX, Call.bind]) ∧
    ((1 : Int) = 0 ↔
      ∀ c ∈ setup_calls, 0 ≤ (fun c => if c = Call.bind then (-1 : Int) else 3) c) :=
  ⟨by decide,
   ((main_fail_fast (fun c => if c = Call.bind then -1 else 3) (List.replicate 10 true) ∅).2.1
      1 (State.mk 3 1 ∅ [Call.sigaction_SIGINT, Call.socket, Call.ioctl_SIOCGIFINDEX, Call.bind])
      (by decide)).1⟩

/-- C10 as stated fails: the first read result, 5, differs from `CAN_MTU`,
yet the handler reads a second time. -/
theorem io_handler_short_read_keeps_draining :
    (5 : Int) ≠ CAN_MTU ∧
    io_handler SIGIO [5, 0] (State.mk 3 0 ∅ []) =
      some ([Event.read 3 CAN_MTU 5, Event.write STDOUT_FILENO nodata_msg 2,
             Event.read 3 CAN_MTU 0, Event.write STDOUT_FILENO nodata_msg 2,
             Event.write STDOUT_FILENO done_msg 2], []) ∧
    (io_handler SIGIO [5, 0] (State.mk 3 0 ∅ [])).map (fun p => reads_performed p.1) =
      some 2 := by
  decide

/-- C10 amended, stop condition of the drain loop.  With a valid handle, a
read result that differs from `CAN_MTU` emits `_` and a result equal to
`CAN_MTU` emits `+`; the loop goes on after every positive result `pre` and
stops at the first result `r <= 0`, after exactly `pre.length + 1` reads,
leaving every later read result unused. -/
theorem io_handler_stops_at_first_nonpositive (sig : Nat) (s : State) (pre : List Int)
    (r : Int) (rest : List Int) (hfd : 0 ≤ s.socket_fd) (hpre : ∀ x ∈ pre, 0 < x)
    (hr : r ≤ 0) :
    ∃ trace, io_handler sig (pre ++ r :: rest) s = some (trace, rest) ∧
      trace = ((pre ++ [r]).map (read_attempt s.socket_fd)).flatten ++
        [Event.write STDOUT_FILENO done_msg 2] ∧
      reads_performed trace = pre.length + 1 ∧
      symbols trace =
        (pre ++ [r]).map (fun x => if x = CAN_MTU then '+' else '_') ++ ['|'] := by
  refine ⟨_, io_handler_valid sig s pre r rest hfd hpre hr, ?_, ?_, ?_⟩
  · rw [attempts_eq_flatten]; rfl
  · simp [reads_performed_append, reads_performed_attempts, reads_performed_done_event]
  · simp only [symbols_append, symbols_attempts, symbols_done_event]; rfl

/-- Witness of C10 amended: a short read, a full frame, then end of data. -/
theorem io_handler_stops_at_first_nonpositive_witness :
    ∃ trace, io_handler SIGIO ([5, 16] ++ 0 :: [16]) (State.mk 3 0 ∅ []) = some (trace, [16]) ∧
      trace = (([5, 16] ++ [0]).map (read_attempt (State.mk 3 0 ∅ []).socket_fd)).flatten ++
        [Event.write STDOUT_FILENO done_msg 2] ∧
      reads_performed trace = [5, 16].length + 1 ∧
      symbols trace =
        ([5, 16] ++ [0]).map (fun x => if x = CAN_MTU then '+' else '_') ++ ['|'] :=
  io_handler_stops_at_first_nonpositive SIGIO (State.mk 3 0 ∅ []) [5, 16] 0 [16]
    (by decide) (by decide) (by decide)

end Signals
